import Mathlib

/-!
Verification of the `apifast` fluent HTTP request builder.

The Go source (`apifast.go`) is shallowly embedded below:

* `Header`, `Auth`, `RequestOptions`, `FastBuilder`, `Response` mirror the
  Go structs of the same names (field names are kept where Lean allows;
  the `RequestOptions.Auth` field is written `auth` to avoid clashing with
  the `Auth` type name).
* The setters `Uri`, `Timeout`, `Auth`, `Headers`, `Payload`, `Result`
  are the Go pointer-receiver methods, embedded as state transformers on
  the builder value; `callOn` additionally models the Go method-call
  discipline (`b.url = url; return b`) on an explicit pointer heap, so
  that "returns the same builder instance" is statable.
* `FhRequest` models the outgoing `fasthttp.Request` at the granularity
  this layer touches it: the effective header map with `Header.Set`
  replace-by-canonical-name semantics (`setKV` / `normalizeHeaderKey`,
  as fasthttp normalizes keys by default), plus a `headerTrace` ghost
  field recording every `Set` call in program order, the URI, the method
  and the optional body.
* `buildRequest` is the request-preparation part of `makeRequest`
  (source lines 128-153); `makeRequest` itself is parameterized by the
  external transport (`client.DoTimeout`, a black box per the spec) and
  by the `json.Unmarshal` oracle, and by the elapsed time at the point
  where `ctx.Err()` is consulted. `ctxDeadline` / `ctxErrDeadlineExceeded`
  model `context.WithTimeout` vs `context.Background()` from source lines
  112-120 and the check on line 163.
* Go byte strings are modeled via an explicit UTF-8 encoder (`strBytes`)
  and `base64Encode` implements `base64.StdEncoding.EncodeToString`.
-/

/-- A single 6-bit group rendered as a standard-base64 alphabet character. -/
def b64Index (n : Nat) : Char :=
  if n < 26 then Char.ofNat (65 + n)
  else if n < 52 then Char.ofNat (97 + (n - 26))
  else if n < 62 then Char.ofNat (48 + (n - 52))
  else if n = 62 then '+' else '/'

/-- `base64.StdEncoding.EncodeToString`: standard base64 with `=` padding,
over bytes represented as `Nat` values below 256. -/
def base64Encode : List Nat → String
  | [] => ""
  | [a] => String.mk [b64Index (a / 4), b64Index (a % 4 * 16), '=', '=']
  | [a, b] =>
      String.mk [b64Index (a / 4), b64Index (a % 4 * 16 + b / 16),
        b64Index (b % 16 * 4), '=']
  | a :: b :: c :: rest =>
      String.mk [b64Index (a / 4), b64Index (a % 4 * 16 + b / 16),
        b64Index (b % 16 * 4 + c / 64), b64Index (c % 64)] ++ base64Encode rest

/-- UTF-8 encoding of one character (Go strings are UTF-8 byte sequences). -/
def utf8Char (c : Char) : List Nat :=
  let n := c.toNat
  if n < 128 then [n]
  else if n < 2048 then [192 + n / 64, 128 + n % 64]
  else if n < 65536 then [224 + n / 4096, 128 + n / 64 % 64, 128 + n % 64]
  else [240 + n / 262144, 128 + n / 4096 % 64, 128 + n / 64 % 64, 128 + n % 64]

/-- The byte sequence of a Go string (`[]byte(s)`). -/
def strBytes (s : String) : List Nat :=
  (s.data.map utf8Char).flatten

/-- The closed set of serializable header values (spec §9): a Go
`interface\x7b\x7d` header value as used with `fmt.Sprintf("%v", ·)`. -/
inductive HValue : Type
  | str (s : String)
  | int (n : Int)
  | boolean (b : Bool)
  | bytes (bs : List Nat)
  deriving DecidableEq

/-- `fmt.Sprintf("%v", v)` on the closed value set: strings verbatim,
integers in decimal, booleans as `true`/`false`, byte slices as
bracketed space-separated decimals. -/
def HValue.render : HValue → String
  | .str s => s
  | .int n => toString n
  | .boolean b => if b then "true" else "false"
  | .bytes bs => "[" ++ String.intercalate " " (bs.map toString) ++ "]"

/-- Go struct `Header`: a name (`Tag`) / value pair. -/
structure Header : Type where
  Tag : String
  Value : HValue
  deriving DecidableEq

/-- Go struct `Auth`: username/password for Basic, token for Bearer. -/
structure Auth : Type where
  Username : String := ""
  Password : String := ""
  Token : String := ""
  deriving DecidableEq

/-- Go struct `RequestOptions`. `Timeout : Nat` models the
`time.Duration` (nanoseconds, never negative in this API's use);
`payload = none` models a nil `[]byte`. The Go field `Auth` is written
`auth` here to avoid shadowing the `Auth` type. -/
structure RequestOptions : Type where
  Timeout : Nat := 0
  payload : Option (List Nat) := none
  Headers : List Header := []
  auth : Auth := {}
  deriving DecidableEq

/-- Go struct `FastBuilder`. `δ` is the type of the decoded destination
value; `result = none` models a nil destination (`interface\x7b\x7d`). -/
structure FastBuilder (δ : Type) : Type where
  method : String := ""
  url : String := ""
  options : RequestOptions := {}
  result : Option δ := none

/-- `Build()` — the factory returning a zero-value builder. -/
def Build (δ : Type) : FastBuilder δ := {}

/-- `Uri` sets the request URL (source lines 51-54). -/
def FastBuilder.Uri (b : FastBuilder δ) (url : String) : FastBuilder δ :=
  { b with url := url }

/-- `Timeout` sets the request timeout (source lines 57-60). -/
def FastBuilder.Timeout (b : FastBuilder δ) (timeout : Nat) : FastBuilder δ :=
  { b with options := { b.options with Timeout := timeout } }

/-- `Auth` sets the authentication options (source lines 63-66). -/
def FastBuilder.Auth (b : FastBuilder δ) (a : Auth) : FastBuilder δ :=
  { b with options := { b.options with auth := a } }

/-- `Headers` sets custom headers (source lines 69-72). -/
def FastBuilder.Headers (b : FastBuilder δ) (headers : List Header) :
    FastBuilder δ :=
  { b with options := { b.options with Headers := headers } }

/-- `Payload` sets the request payload (source lines 75-78). -/
def FastBuilder.Payload (b : FastBuilder δ) (payload : Option (List Nat)) :
    FastBuilder δ :=
  { b with options := { b.options with payload := payload } }

/-- `Result` specifies where to store the response result
(source lines 81-84). -/
def FastBuilder.Result (b : FastBuilder δ) (result : Option δ) :
    FastBuilder δ :=
  { b with result := result }

/-- A heap of builder objects, addressed by `Nat` pointers. -/
def BHeap (δ : Type) : Type := Nat → FastBuilder δ

/-- Point update of a builder heap. -/
def heapUpdate (h : BHeap δ) (p : Nat) (v : FastBuilder δ) : BHeap δ :=
  fun q => if q = p then v else h q

/-- A Go pointer-receiver setter call `b.f(...)` followed by `return b`:
mutates the object at `p` in place and returns the receiver pointer. -/
def callOn (p : Nat) (h : BHeap δ) (f : FastBuilder δ → FastBuilder δ) :
    Nat × BHeap δ :=
  (p, heapUpdate h p (f (h p)))

/-- One character of fasthttp's header-key canonicalization: uppercase at
the start of each dash-separated part, lowercase elsewhere. -/
def normChars : Bool → List Char → List Char
  | _, [] => []
  | up, c :: rest =>
      (if up then c.toUpper else c.toLower) :: normChars (c = '-') rest

/-- fasthttp's canonical header-key form (normalization is on by default):
e.g. `"authorization"` becomes `"Authorization"`. -/
def normalizeHeaderKey (s : String) : String :=
  String.mk (normChars true s.data)

/-- Replace-or-append on a key/value list: the store discipline of
`fasthttp.RequestHeader.Set` (one entry per key). -/
def setKV : List (String × String) → String → String → List (String × String)
  | [], k, v => [(k, v)]
  | (k₀, v₀) :: rest, k, v =>
      if k₀ = k then (k, v) :: rest else (k₀, v₀) :: setKV rest k v

/-- Lookup in a key/value list. -/
def lookupKV : List (String × String) → String → Option String
  | [], _ => none
  | (k₀, v₀) :: rest, k => if k₀ = k then some v₀ else lookupKV rest k

/-- The outgoing `fasthttp.Request` at the granularity this layer touches
it. `headers` is the effective header map (canonical keys, `Set`
semantics); `headerTrace` is a ghost trace of every `Set` call in
program order, with the key as written at the call site. -/
structure FhRequest : Type where
  headerTrace : List (String × String) := []
  headers : List (String × String) := []
  uri : String := ""
  method : String := "GET"
  body : Option (List Nat) := none
  deriving DecidableEq

/-- `req.Header.Set(k, v)`: records the call in the trace and updates the
effective header map under the canonical key. -/
def FhRequest.setHeader (r : FhRequest) (k v : String) : FhRequest :=
  { r with
    headerTrace := r.headerTrace ++ [(k, v)]
    headers := setKV r.headers (normalizeHeaderKey k) v }

/-- The effective value of header `k` on the outgoing request. -/
def FhRequest.getHeader (r : FhRequest) (k : String) : Option String :=
  lookupKV r.headers (normalizeHeaderKey k)

/-- The Authorization header value computed on source lines 138-144:
Basic if both username and password are non-empty, else Bearer if the
token is non-empty, else nothing. -/
def authHeaderValue (a : Auth) : Option String :=
  if a.Username ≠ "" ∧ a.Password ≠ "" then
    some ("Basic " ++ base64Encode (strBytes (a.Username ++ ":" ++ a.Password)))
  else if a.Token ≠ "" then
    some ("Bearer " ++ a.Token)
  else
    none

/-- The header loop of `makeRequest` (source lines 132-135): `Set` each
configured header in order, its value rendered by `fmt.Sprintf("%v", ·)`
at application time. -/
def applyHeaders (hs : List Header) (r : FhRequest) : FhRequest :=
  hs.foldl (fun r h => r.setHeader h.Tag h.Value.render) r

/-- The Authorization conditional of `makeRequest` (source lines 137-144). -/
def applyAuth (a : Auth) (r : FhRequest) : FhRequest :=
  if a.Username ≠ "" ∧ a.Password ≠ "" then
    r.setHeader "Authorization"
      ("Basic " ++ base64Encode (strBytes (a.Username ++ ":" ++ a.Password)))
  else if a.Token ≠ "" then
    r.setHeader "Authorization" ("Bearer " ++ a.Token)
  else r

/-- The request-preparation phase of `makeRequest` (source lines 128-153):
acquire a fresh request, `Set` each configured header in order, apply the
Authorization conditional, set URI and method, and set the body only when
the payload is non-nil. -/
def buildRequest (b : FastBuilder δ) : FhRequest :=
  let req : FhRequest := {}
  let req := applyHeaders b.options.Headers req
  let req := applyAuth b.options.auth req
  let req := { req with uri := b.url }
  let req := { req with method := b.method }
  if b.options.payload.isSome then { req with body := b.options.payload } else req

/-- The `fasthttp.Client` configuration built on source lines 122-126. -/
structure ClientCfg : Type where
  ReadTimeout : Nat
  WriteTimeout : Nat
  deriving DecidableEq

/-- The client constructed by `makeRequest`: both timeouts are the
configured request timeout. -/
def makeClient (b : FastBuilder δ) : ClientCfg :=
  ⟨b.options.Timeout, b.options.Timeout⟩

/-- What the transport hands back on success: `resp.StatusCode()`,
`resp.String()` (its textual rendering) and `resp.Body()`. -/
structure TransportResult : Type where
  statusCode : Int
  respString : String
  body : List Nat
  deriving DecidableEq

/-- The external transport: `client.DoTimeout(req, resp, timeout)`,
a black box taking the client configuration, the prepared request and the
timeout argument, and returning a result or an error message. -/
def Transport : Type :=
  ClientCfg → FhRequest → Nat → Except String TransportResult

/-- The deadline of the `context` created on source lines 112-120:
`context.WithTimeout` when a positive timeout is configured,
`context.Background()` (no deadline) otherwise. -/
def ctxDeadline (timeout : Nat) : Option Nat :=
  if 0 < timeout then some timeout else none

/-- The check on source line 163, `ctx.Err() == context.DeadlineExceeded`,
evaluated when `elapsed` time has passed since the context was created:
true exactly when the context has a deadline and it has expired. -/
def ctxErrDeadlineExceeded (timeout elapsed : Nat) : Bool :=
  match ctxDeadline timeout with
  | some d => decide (d ≤ elapsed)
  | none => false

/-- Go struct `Response`: status code, status/message string
(`resp.String()`), raw body bytes. -/
structure Response : Type where
  Code : Int
  Msg : String
  Body : List Nat
  deriving DecidableEq

/-- The error values `makeRequest` can return (source lines 164, 166, 175):
`timedOut` is `"request timed out"`, `requestFailed` wraps the transport
error message, `decodeFailure` is the error returned by `mapper`. -/
inductive ApiError : Type
  | timedOut
  | requestFailed (msg : String)
  | decodeFailure (msg : String)
  deriving DecidableEq

/-- `mapper` (source lines 188-190): unmarshals the JSON body into the
destination via the `json.Unmarshal` oracle. -/
def mapper (jsonUnmarshal : List Nat → Except String δ)
    (source : List Nat) : Except String δ :=
  jsonUnmarshal source

/-- `makeRequest` (source lines 111-185), parameterized by the transport
black box, the elapsed time at the error-classification point, and the
`json.Unmarshal` oracle. On success it returns the `Response` together
with the decoded destination value (`some` exactly when a destination was
supplied). -/
def makeRequest (b : FastBuilder δ) (transport : Transport) (elapsed : Nat)
    (jsonUnmarshal : List Nat → Except String δ) :
    Except ApiError (Response × Option δ) :=
  let client := makeClient b
  let req := buildRequest b
  match transport client req b.options.Timeout with
  | .error e =>
      if ctxErrDeadlineExceeded b.options.Timeout elapsed then
        .error .timedOut
      else
        .error (.requestFailed e)
  | .ok r =>
      let body := r.body
      match b.result with
      | some _ =>
          match mapper jsonUnmarshal body with
          | .error m => .error (.decodeFailure m)
          | .ok v => .ok (⟨r.statusCode, r.respString, body⟩, some v)
      | none => .ok (⟨r.statusCode, r.respString, body⟩, none)

/-- `Get` (source lines 87-90): fixes the verb and dispatches. -/
def FastBuilder.Get (b : FastBuilder δ) (transport : Transport)
    (elapsed : Nat) (jsonUnmarshal : List Nat → Except String δ) :
    Except ApiError (Response × Option δ) :=
  makeRequest { b with method := "GET" } transport elapsed jsonUnmarshal

/-- `Post` (source lines 93-96). -/
def FastBuilder.Post (b : FastBuilder δ) (transport : Transport)
    (elapsed : Nat) (jsonUnmarshal : List Nat → Except String δ) :
    Except ApiError (Response × Option δ) :=
  makeRequest { b with method := "POST" } transport elapsed jsonUnmarshal

/-- `Patch` (source lines 99-102). -/
def FastBuilder.Patch (b : FastBuilder δ) (transport : Transport)
    (elapsed : Nat) (jsonUnmarshal : List Nat → Except String δ) :
    Except ApiError (Response × Option δ) :=
  makeRequest { b with method := "PATCH" } transport elapsed jsonUnmarshal

/-- `Delete` (source lines 105-108). -/
def FastBuilder.Delete (b : FastBuilder δ) (transport : Transport)
    (elapsed : Nat) (jsonUnmarshal : List Nat → Except String δ) :
    Except ApiError (Response × Option δ) :=
  makeRequest { b with method := "DELETE" } transport elapsed jsonUnmarshal

/-! Concrete inputs used by witnesses and counterexamples. -/

/-- A builder whose configured headers themselves carry an
`Authorization` entry, with a zero `Auth` value. -/
def cexBuilder : FastBuilder Nat :=
  { options := { Headers := [⟨"Authorization", .str "X"⟩] } }

/-- A zero-value builder (no timeout, no destination). -/
def bNone : FastBuilder Nat := Build Nat

/-- A builder with a destination supplied. -/
def bSome : FastBuilder Nat := { result := some 0 }

/-- A builder with a positive timeout configured. -/
def bTime : FastBuilder Nat := { options := { Timeout := 5 } }

/-- A builder with Basic credentials and one innocuous header. -/
def bAuth : FastBuilder Nat :=
  { options := { Headers := [⟨"Accept", .str "application/json"⟩],
                 auth := { Username := "u", Password := "p" } } }

/-- A transport that always succeeds with a fixed result. -/
def trOk : Transport := fun _ _ _ => .ok ⟨200, "200 OK", [123, 125]⟩

/-- A second transport with the same behavior, written separately. -/
def trOk2 : Transport := fun _ _ _ => .ok ⟨200, "200 OK", [123, 125]⟩

/-- A transport that always fails with a non-timeout message. -/
def trErr : Transport := fun _ _ _ => .error "connection refused"

/-- An unmarshal oracle that always decodes to `7`. -/
def juOk : List Nat → Except String Nat := fun _ => .ok 7

/-- An unmarshal oracle that always fails. -/
def juErr : List Nat → Except String Nat := fun _ => .error "invalid json"

/-- A heap holding zero-value builders at every address. -/
def hB : BHeap Nat := fun _ => {}

/-! Helper lemmas. -/

theorem setHeader_body (r : FhRequest) (k v : String) :
    (r.setHeader k v).body = r.body := rfl

theorem applyHeaders_body (hs : List Header) (r : FhRequest) :
    (applyHeaders hs r).body = r.body := by
  induction hs generalizing r with
  | nil => rfl
  | cons hd tl ih => simpa [applyHeaders] using ih (r.setHeader hd.Tag hd.Value.render)

theorem applyAuth_body (a : Auth) (r : FhRequest) :
    (applyAuth a r).body = r.body := by
  unfold applyAuth
  split <;> [rfl; split <;> rfl]

theorem applyHeaders_trace (hs : List Header) (r : FhRequest) :
    (applyHeaders hs r).headerTrace
      = r.headerTrace ++ hs.map fun h => (h.Tag, h.Value.render) := by
  induction hs generalizing r with
  | nil => simp [applyHeaders]
  | cons hd tl ih =>
      simp [applyHeaders] at ih ⊢
      rw [ih]
      simp [FhRequest.setHeader]

theorem applyAuth_trace (a : Auth) (r : FhRequest) :
    (applyAuth a r).headerTrace
      = r.headerTrace ++ (authHeaderValue a).elim []
          (fun v => [("Authorization", v)]) := by
  unfold applyAuth authHeaderValue
  split
  · simp [FhRequest.setHeader]
  · split
    · simp [FhRequest.setHeader]
    · simp

theorem lookupKV_setKV (hs : List (String × String)) (k v k' : String) :
    lookupKV (setKV hs k v) k' = if k = k' then some v else lookupKV hs k' := by
  induction hs with
  | nil => simp [setKV, lookupKV]
  | cons hd tl ih =>
      obtain ⟨k₀, v₀⟩ := hd
      by_cases h₀ : k₀ = k
      · subst h₀
        by_cases h' : k₀ = k'
        · simp [setKV, lookupKV, h']
        · simp [setKV, lookupKV, h']
      · by_cases h' : k₀ = k'
        · subst h'
          have : ¬ k = k₀ := fun h => h₀ h.symm
          simp [setKV, lookupKV, h₀, this]
        · simp [setKV, lookupKV, h₀, h', ih]

theorem applyHeaders_lookup_of_ne (hs : List Header) (r : FhRequest)
    (K : String) (hne : ∀ h ∈ hs, normalizeHeaderKey h.Tag ≠ K) :
    lookupKV (applyHeaders hs r).headers K = lookupKV r.headers K := by
  induction hs generalizing r with
  | nil => rfl
  | cons hd tl ih =>
      have h₁ : normalizeHeaderKey hd.Tag ≠ K := hne hd (by simp)
      have h₂ : ∀ h ∈ tl, normalizeHeaderKey h.Tag ≠ K :=
        fun h hm => hne h (by simp [hm])
      calc lookupKV (applyHeaders (hd :: tl) r).headers K
          = lookupKV (applyHeaders tl (r.setHeader hd.Tag hd.Value.render)).headers K := by
            simp [applyHeaders]
        _ = lookupKV (r.setHeader hd.Tag hd.Value.render).headers K := ih _ h₂
        _ = lookupKV r.headers K := by
            simp [FhRequest.setHeader, lookupKV_setKV, h₁]

theorem applyAuth_lookup (a : Auth) (r : FhRequest) :
    lookupKV (applyAuth a r).headers "Authorization"
      = (authHeaderValue a).elim (lookupKV r.headers "Authorization") some := by
  have hnorm : normalizeHeaderKey "Authorization" = "Authorization" := by decide
  unfold applyAuth authHeaderValue
  split
  · simp [FhRequest.setHeader, hnorm, lookupKV_setKV]
  · split
    · simp [FhRequest.setHeader, hnorm, lookupKV_setKV]
    · simp

/-! Claim theorems. -/

/-- C5: the outgoing request body equals the supplied payload bytes
exactly when a non-nil payload was configured, and no body is attached
when the payload is nil/unset. -/
theorem C5_body_is_payload (b : FastBuilder δ) :
    (buildRequest b).body = b.options.payload := by
  unfold buildRequest
  by_cases hp : b.options.payload.isSome
  · simp [hp]
  · simp [hp, applyHeaders_body, applyAuth_body,
      Option.not_isSome_iff_eq_none.mp hp]

/-- C7: the configured headers are applied to the outgoing request in the
order they were supplied, each value rendered to its string form
(`fmt.Sprintf("%v", ·)`) at application time: the first
`b.options.Headers.length` header-set operations are exactly the
configured sequence, rendered. -/
theorem C7_headers_in_order (b : FastBuilder δ) :
    (buildRequest b).headerTrace.take b.options.Headers.length
      = b.options.Headers.map fun h => (h.Tag, h.Value.render) := by
  have htr : (buildRequest b).headerTrace
      = (b.options.Headers.map fun h => (h.Tag, h.Value.render))
        ++ (authHeaderValue b.options.auth).elim []
            (fun v => [("Authorization", v)]) := by
    unfold buildRequest
    by_cases hp : b.options.payload.isSome <;>
      simp [hp, applyAuth_trace, applyHeaders_trace]
  rw [htr, ← List.length_map b.options.Headers fun h => (h.Tag, h.Value.render),
    List.take_left]

/-- C9: every setter is last-write-wins: a second call with a new value
leaves the builder as if only the second call had happened; `Headers`
replaces the previously configured sequence rather than appending; and
applying any setter with the same value twice equals applying it once. -/
theorem C9_setters_last_write_wins (b : FastBuilder δ) (u₁ u₂ : String)
    (t₁ t₂ : Nat) (a₁ a₂ : Auth) (hs₁ hs₂ : List Header)
    (p₁ p₂ : Option (List Nat)) (r₁ r₂ : Option δ) :
    ((b.Uri u₁).Uri u₂ = b.Uri u₂) ∧
    ((b.Timeout t₁).Timeout t₂ = b.Timeout t₂) ∧
    ((b.Auth a₁).Auth a₂ = b.Auth a₂) ∧
    ((b.Headers hs₁).Headers hs₂ = b.Headers hs₂) ∧
    ((b.Payload p₁).Payload p₂ = b.Payload p₂) ∧
    ((b.Result r₁).Result r₂ = b.Result r₂) ∧
    (((b.Headers hs₁).Headers hs₂).options.Headers = hs₂) ∧
    ((b.Uri u₁).Uri u₁ = b.Uri u₁) ∧
    ((b.Timeout t₁).Timeout t₁ = b.Timeout t₁) ∧
    ((b.Auth a₁).Auth a₁ = b.Auth a₁) ∧
    ((b.Headers hs₁).Headers hs₁ = b.Headers hs₁) ∧
    ((b.Payload p₁).Payload p₁ = b.Payload p₁) ∧
    ((b.Result r₁).Result r₁ = b.Result r₁) :=
  ⟨rfl, rfl, rfl, rfl, rfl, rfl, rfl, rfl, rfl, rfl, rfl, rfl, rfl⟩

/-- C8: every setter call returns the very pointer it was invoked on
(`callOn` models the `return b` of the pointer-receiver methods, for any
mutation `f`), leaves every other heap object untouched, and each of the
six setters updates exactly its own configuration field, leaving all
other builder fields unchanged. -/
theorem C8_setters_receiver_and_frame (p q : Nat) (h : BHeap δ)
    (f : FastBuilder δ → FastBuilder δ) (hq : q ≠ p) (b : FastBuilder δ)
    (u : String) (t : Nat) (a : Auth) (hs : List Header)
    (pl : Option (List Nat)) (r : Option δ) :
    ((callOn p h f).1 = p) ∧
    ((callOn p h f).2 q = h q) ∧
    ((callOn p h f).2 p = f (h p)) ∧
    ((b.Uri u).url = u ∧ (b.Uri u).method = b.method ∧
      (b.Uri u).options = b.options ∧ (b.Uri u).result = b.result) ∧
    ((b.Timeout t).options.Timeout = t ∧ (b.Timeout t).url = b.url ∧
      (b.Timeout t).method = b.method ∧ (b.Timeout t).result = b.result ∧
      (b.Timeout t).options.payload = b.options.payload ∧
      (b.Timeout t).options.Headers = b.options.Headers ∧
      (b.Timeout t).options.auth = b.options.auth) ∧
    ((b.Auth a).options.auth = a ∧ (b.Auth a).url = b.url ∧
      (b.Auth a).method = b.method ∧ (b.Auth a).result = b.result ∧
      (b.Auth a).options.Timeout = b.options.Timeout ∧
      (b.Auth a).options.payload = b.options.payload ∧
      (b.Auth a).options.Headers = b.options.Headers) ∧
    ((b.Headers hs).options.Headers = hs ∧ (b.Headers hs).url = b.url ∧
      (b.Headers hs).method = b.method ∧ (b.Headers hs).result = b.result ∧
      (b.Headers hs).options.Timeout = b.options.Timeout ∧
      (b.Headers hs).options.payload = b.options.payload ∧
      (b.Headers hs).options.auth = b.options.auth) ∧
    ((b.Payload pl).options.payload = pl ∧ (b.Payload pl).url = b.url ∧
      (b.Payload pl).method = b.method ∧ (b.Payload pl).result = b.result ∧
      (b.Payload pl).options.Timeout = b.options.Timeout ∧
      (b.Payload pl).options.Headers = b.options.Headers ∧
      (b.Payload pl).options.auth = b.options.auth) ∧
    ((b.Result r).result = r ∧ (b.Result r).url = b.url ∧
      (b.Result r).method = b.method ∧ (b.Result r).options = b.options) := by
  refine ⟨rfl, ?_, ?_, ⟨rfl, rfl, rfl, rfl⟩,
    ⟨rfl, rfl, rfl, rfl, rfl, rfl, rfl⟩, ⟨rfl, rfl, rfl, rfl, rfl, rfl, rfl⟩,
    ⟨rfl, rfl, rfl, rfl, rfl, rfl, rfl⟩, ⟨rfl, rfl, rfl, rfl, rfl, rfl, rfl⟩,
    ⟨rfl, rfl, rfl, rfl⟩⟩
  · simp [callOn, heapUpdate, hq]
  · simp [callOn, heapUpdate]

/-- C8 witness: concrete instance of the receiver/frame theorem. -/
theorem C8_witness :
    ((1 : Nat) ≠ 0) ∧
    (callOn 0 hB fun x => x.Uri "x").1 = 0 ∧
    (callOn 0 hB fun x => x.Uri "x").2 1 = hB 1 ∧
    (bNone.Timeout 5).options.Headers = bNone.options.Headers := by
  obtain ⟨h₁, h₂, -, -, h₅, -⟩ :=
    C8_setters_receiver_and_frame 0 1 hB (fun x => x.Uri "x") (by decide)
      bNone "x" 5 ⟨"u", "p", "t"⟩ [] none (some 3)
  exact ⟨by decide, h₁, h₂, h₅.2.2.2.2.2.1⟩

/-- C1 counterexample: a dispatch whose configured header sequence itself
contains an `Authorization` entry. The `Auth` value is zero, yet the
outgoing request carries an Authorization header, so the header is not
determined solely by the configured `Auth` value and "otherwise no
Authorization header is set" fails. -/
theorem C1_counterexample_user_auth_header :
    cexBuilder.options.auth = ({} : Auth) ∧
    (buildRequest cexBuilder).getHeader "Authorization" = some "X" := by
  constructor
  · rfl
  · decide

/-- C1 (amended): for every builder, unconditionally, the auth step
performs at most one header-set operation, so at most one of the
Basic/Bearer schemes is ever applied per request; and provided no
configured header canonicalizes to the name `Authorization`, the
Authorization header of the dispatched request is determined solely by
the configured `Auth` value — `"Basic " ++ base64("username:password")`
when both username and password are non-empty, else `"Bearer " ++ token`
when the token is non-empty, else unset. -/
theorem C1_amended_auth_solely_from_auth (b : FastBuilder δ) :
    ((buildRequest b).headerTrace.drop b.options.Headers.length).length ≤ 1 ∧
    ((∀ h ∈ b.options.Headers,
        normalizeHeaderKey h.Tag ≠ "Authorization") →
      (buildRequest b).getHeader "Authorization"
        = authHeaderValue b.options.auth) := by
  have hb : (buildRequest b).headers
      = (applyAuth b.options.auth (applyHeaders b.options.Headers {})).headers := by
    unfold buildRequest
    by_cases hp : b.options.payload.isSome <;> simp [hp]
  have ht : (buildRequest b).headerTrace
      = (applyAuth b.options.auth (applyHeaders b.options.Headers {})).headerTrace := by
    unfold buildRequest
    by_cases hp : b.options.payload.isSome <;> simp [hp]
  constructor
  · rw [ht, applyAuth_trace, applyHeaders_trace]
    have hnil : ({} : FhRequest).headerTrace = [] := rfl
    rw [hnil, List.nil_append,
      ← List.length_map b.options.Headers fun h => (h.Tag, h.Value.render),
      List.drop_left]
    cases authHeaderValue b.options.auth <;> simp
  · intro hnone
    have hnorm : normalizeHeaderKey "Authorization" = "Authorization" := by decide
    unfold FhRequest.getHeader
    rw [hnorm, hb, applyAuth_lookup]
    have h0 : lookupKV (applyHeaders b.options.Headers ({} : FhRequest)).headers
        "Authorization" = none := by
      rw [applyHeaders_lookup_of_ne _ _ _ hnone]; rfl
    cases hav : authHeaderValue b.options.auth <;> simp [hav, h0]

/-- C1 witness: the unconditional at-most-one-scheme conjunct at the
builder whose configured headers do carry an `Authorization` entry, and
the solely-from-`Auth` conjunct at a builder with Basic credentials and
an innocuous configured header. -/
theorem C1_witness :
    ((buildRequest cexBuilder).headerTrace.drop
        cexBuilder.options.Headers.length).length ≤ 1 ∧
    (∀ h ∈ bAuth.options.Headers,
      normalizeHeaderKey h.Tag ≠ "Authorization") ∧
    (buildRequest bAuth).getHeader "Authorization"
      = authHeaderValue bAuth.options.auth := by
  have hh : ∀ h ∈ bAuth.options.Headers,
      normalizeHeaderKey h.Tag ≠ "Authorization" := by decide
  exact ⟨(C1_amended_auth_solely_from_auth cexBuilder).1, hh,
    (C1_amended_auth_solely_from_auth bAuth).2 hh⟩

/-- C2: the JSON-decode step runs if and only if a result destination was
supplied: with no destination the outcome is independent of the unmarshal
oracle and the destination stays absent; with a destination, a decode
error aborts the call with a decode-failure error and no `Response`, and
a successful decode populates the destination with no error. -/
theorem C2_decode_iff_destination (b : FastBuilder δ) (transport : Transport)
    (elapsed : Nat) (u : List Nat → Except String δ) (r : TransportResult)
    (hok : transport (makeClient b) (buildRequest b) b.options.Timeout
      = .ok r) :
    (b.result = none →
      makeRequest b transport elapsed u
        = .ok (⟨r.statusCode, r.respString, r.body⟩, none) ∧
      ∀ u', makeRequest b transport elapsed u
        = makeRequest b transport elapsed u') ∧
    (∀ d, b.result = some d →
      (∀ m, u r.body = .error m →
        makeRequest b transport elapsed u = .error (.decodeFailure m)) ∧
      (∀ v, u r.body = .ok v →
        makeRequest b transport elapsed u
          = .ok (⟨r.statusCode, r.respString, r.body⟩, some v))) := by
  constructor
  · intro hres
    constructor
    · simp [makeRequest, hok, hres]
    · intro u'
      simp [makeRequest, hok, hres]
  · intro d hres
    constructor
    · intro m hm
      simp [makeRequest, hok, hres, mapper, hm]
    · intro v hv
      simp [makeRequest, hok, hres, mapper, hv]

/-- C2 witness: concrete decode failure, decode success, and
no-destination dispatches. -/
theorem C2_witness :
    trOk (makeClient bSome) (buildRequest bSome) bSome.options.Timeout
      = .ok ⟨200, "200 OK", [123, 125]⟩ ∧
    makeRequest bSome trOk 0 juErr = .error (.decodeFailure "invalid json") ∧
    makeRequest bSome trOk 0 juOk = .ok (⟨200, "200 OK", [123, 125]⟩, some 7) ∧
    makeRequest bNone trOk 0 juOk = .ok (⟨200, "200 OK", [123, 125]⟩, none) := by
  refine ⟨rfl, ?_, ?_, ?_⟩
  · exact ((C2_decode_iff_destination bSome trOk 0 juErr _ rfl).2 0 rfl).1
      "invalid json" rfl
  · exact ((C2_decode_iff_destination bSome trOk 0 juOk _ rfl).2 0 rfl).2 7 rfl
  · exact ((C2_decode_iff_destination bNone trOk 0 juOk _ rfl).1 rfl).1

/-- C3: when the transport call fails, the dispatch returns an error and
no `Response`; the error is the timeout-kind one exactly when the
configured timeout's context deadline had expired (`ctx.Err() ==
context.DeadlineExceeded`), and otherwise it is the generic
transport-failure error wrapping the underlying message. -/
theorem C3_transport_error_classification (b : FastBuilder δ)
    (transport : Transport) (elapsed : Nat)
    (u : List Nat → Except String δ) (e : String)
    (herr : transport (makeClient b) (buildRequest b) b.options.Timeout
      = .error e) :
    (∃ err, makeRequest b transport elapsed u = .error err) ∧
    (makeRequest b transport elapsed u = .error .timedOut
      ↔ ctxErrDeadlineExceeded b.options.Timeout elapsed = true) ∧
    (ctxErrDeadlineExceeded b.options.Timeout elapsed = false →
      makeRequest b transport elapsed u = .error (.requestFailed e)) := by
  cases hbool : ctxErrDeadlineExceeded b.options.Timeout elapsed with
  | true =>
      refine ⟨⟨.timedOut, ?_⟩, ?_, ?_⟩ <;> simp [makeRequest, herr, hbool]
  | false =>
      refine ⟨⟨.requestFailed e, ?_⟩, ?_, ?_⟩ <;>
        simp [makeRequest, herr, hbool]

/-- C3 witness: a failing transport with an expired positive timeout is
classified as the timeout-kind error. -/
theorem C3_witness :
    trErr (makeClient bTime) (buildRequest bTime) bTime.options.Timeout
      = .error "connection refused" ∧
    (makeRequest bTime trErr 10 juOk = .error .timedOut
      ↔ ctxErrDeadlineExceeded bTime.options.Timeout 10 = true) := by
  exact ⟨rfl,
    (C3_transport_error_classification bTime trErr 10 juOk _ rfl).2.1⟩

/-- C4: a zero (unset) timeout yields a context with no explicit
deadline, a positive timeout yields a deadline of exactly that duration
and a client whose read/write timeouts equal it, and the dispatch
consults the transport only at the prepared request with the configured
timeout as its bound. -/
theorem C4_timeout_wiring (b : FastBuilder δ) :
    (b.options.Timeout = 0 → ctxDeadline b.options.Timeout = none) ∧
    (0 < b.options.Timeout →
      ctxDeadline b.options.Timeout = some b.options.Timeout) ∧
    makeClient b = ⟨b.options.Timeout, b.options.Timeout⟩ ∧
    (∀ t₁ t₂ : Transport, ∀ elapsed u,
      t₁ (makeClient b) (buildRequest b) b.options.Timeout
        = t₂ (makeClient b) (buildRequest b) b.options.Timeout →
      makeRequest b t₁ elapsed u = makeRequest b t₂ elapsed u) := by
  refine ⟨fun h0 => by simp [ctxDeadline, h0],
    fun hpos => by simp [ctxDeadline, hpos], rfl, ?_⟩
  intro t₁ t₂ elapsed u hagree
  simp only [makeRequest]
  rw [hagree]

/-- C4 witness: the zero and positive timeout cases, and transport-call
locality, at concrete inputs. -/
theorem C4_witness :
    bNone.options.Timeout = 0 ∧ ctxDeadline bNone.options.Timeout = none ∧
    (0 : Nat) < bTime.options.Timeout ∧
    ctxDeadline bTime.options.Timeout = some bTime.options.Timeout ∧
    makeRequest bTime trOk 3 juOk = makeRequest bTime trOk2 3 juOk := by
  exact ⟨rfl, (C4_timeout_wiring bNone).1 rfl, by decide,
    (C4_timeout_wiring bTime).2.1 (by decide),
    (C4_timeout_wiring bTime).2.2.2 trOk trOk2 3 juOk rfl⟩

/-- C6: on a successful dispatch the returned `Response` carries the
transport's status code as `Code`, the transport's status/message string
(`resp.String()`) as `Msg`, and the raw body bytes as `Body`. -/
theorem C6_response_fields (b : FastBuilder δ) (transport : Transport)
    (elapsed : Nat) (u : List Nat → Except String δ) (r : TransportResult)
    (hok : transport (makeClient b) (buildRequest b) b.options.Timeout
      = .ok r)
    (hdec : b.result.isSome → ∃ v, u r.body = .ok v) :
    ∃ resp dst, makeRequest b transport elapsed u = .ok (resp, dst) ∧
      resp.Code = r.statusCode ∧ resp.Msg = r.respString ∧
      resp.Body = r.body := by
  cases hres : b.result with
  | none =>
      exact ⟨⟨r.statusCode, r.respString, r.body⟩, none,
        by simp [makeRequest, hok, hres], rfl, rfl, rfl⟩
  | some d =>
      obtain ⟨v, hv⟩ := hdec (by simp [hres])
      exact ⟨⟨r.statusCode, r.respString, r.body⟩, some v,
        by simp [makeRequest, hok, hres, mapper, hv], rfl, rfl, rfl⟩

/-- C6 witness: a successful dispatch with a destination supplied. -/
theorem C6_witness :
    trOk (makeClient bSome) (buildRequest bSome) bSome.options.Timeout
      = .ok ⟨200, "200 OK", [123, 125]⟩ ∧
    ∃ resp dst, makeRequest bSome trOk 0 juOk = .ok (resp, dst) ∧
      resp.Code = 200 ∧ resp.Msg = "200 OK" ∧ resp.Body = [123, 125] := by
  exact ⟨rfl, C6_response_fields bSome trOk 0 juOk _ rfl fun _ => ⟨7, rfl⟩⟩

/-- C10: with no timeout configured the context has no deadline, so a
failing dispatch is always reported as the generic transport-failure
error and can never be the timeout-kind error. -/
theorem C10_no_timeout_error_when_unset (b : FastBuilder δ)
    (transport : Transport) (elapsed : Nat) (u : List Nat → Except String δ)
    (e : String) (h0 : b.options.Timeout = 0)
    (herr : transport (makeClient b) (buildRequest b) b.options.Timeout
      = .error e) :
    makeRequest b transport elapsed u = .error (.requestFailed e) ∧
    makeRequest b transport elapsed u ≠ .error .timedOut := by
  have hc : ctxErrDeadlineExceeded b.options.Timeout elapsed = false := by
    simp [ctxErrDeadlineExceeded, ctxDeadline, h0]
  constructor
  · simp [makeRequest, herr, hc]
  · simp [makeRequest, herr, hc]

/-- C10 witness: a zero-timeout builder with a failing transport, at an
arbitrarily large elapsed time. -/
theorem C10_witness :
    bNone.options.Timeout = 0 ∧
    makeRequest bNone trErr 1000000 juOk
      = .error (.requestFailed "connection refused") := by
  exact ⟨rfl,
    (C10_no_timeout_error_when_unset bNone trErr 1000000 juOk _ rfl rfl).1⟩
